import Mathlib

/- A shallow embedding, in Lean 4, of the connection engine of
EmbeddableWebServer.h: the HeapString growable buffer, the per-request header
string pool, the incremental HTTP request parser state machine, the path
traversal check, response construction and the in-memory response send path.

Modelling conventions:
- size_t, long and int are modelled as Nat or Int (with the source clamps
  made explicit); no machine overflow is reachable in the modelled paths.
- A C string is modelled as a List Char; where the source scans a buffer that
  may contain an interior NUL byte, the model applies takeWhile against the
  NUL character exactly where the C scan stops.
- A NULL pointer is modelled as Option.none (pool string contents) or as the
  empty list (heap blocks, which are never zero sized when allocated).
- The global counters guarded by OptionIncludeStatusPageAndCounters are
  observational only and are not modelled.
-/

namespace EWS

def REQUEST_MAX_HEADERS : Nat := 64

def REQUEST_HEADERS_MAX_MEMORY : Nat := 8 * 1024

def REQUEST_MAX_BODY_LENGTH : Nat := 128 * 1024 * 1024

def RESPONSE_HEADER_SIZE : Nat := 1024

/-- The NUL character. -/
def nulChar : Char := Char.ofNat 0

/-- In C a character literal has type int, so sizeof a NUL seen in
poolStringAppendChar is sizeof(int) = 4 on the modelled platform. -/
def sizeofNulLiteral : Nat := 4

/-! ## HeapString (growable, null terminated for convenience) -/

/-- struct HeapString. contents models the allocated block in full: its list
length is the size of the allocation; the empty list models a NULL pointer
(an allocated block is never empty, the minimum allocation is 256). -/
structure HeapString where
  contents : List Char
  length : Nat
  capacity : Nat
deriving DecidableEq

/-- heapStringNextAllocationSize: double from 256 until the requirement fits.
The C while loop is modelled with explicit fuel; fuel `required` is enough
because doubling from 256 reaches `required` within `required` steps. -/
def nextPow2Go : Nat → Nat → Nat → Nat
  | 0, p, _ => p
  | fuel + 1, p, required => if p < required then nextPow2Go fuel (p * 2) required else p

def heapStringNextAllocationSize (required : Nat) : Nat :=
  nextPow2Go required 256 required

/-- heapStringReallocIfNeeded: on growth, realloc preserves the first
`length` bytes and memset zeroes the rest of the new block (the source
zeroes from contents[length] to the end of the new capacity). -/
def heapStringReallocIfNeeded (s : HeapString) (minimumCapacity : Nat) : HeapString :=
  if minimumCapacity ≤ s.capacity then s
  else
    let cap := heapStringNextAllocationSize minimumCapacity
    { contents := ((s.contents ++ List.replicate cap nulChar).take s.length)
        ++ List.replicate (cap - s.length) nulChar,
      length := s.length,
      capacity := cap }

/-- memcpy of `xs` into the block starting at index `i`. -/
def blockWrite : List Char → Nat → List Char → List Char
  | blk, _, [] => blk
  | blk, i, c :: cs => blockWrite (blk.set i c) (i + 1) cs

def heapStringInit : HeapString := { contents := [], length := 0, capacity := 0 }

def heapStringAppendChar (s : HeapString) (c : Char) : HeapString :=
  let t := heapStringReallocIfNeeded s (s.length + 2)
  { contents := (t.contents.set t.length c).set (t.length + 1) nulChar,
    length := t.length + 1,
    capacity := t.capacity }

def heapStringAppendString (s : HeapString) (stringToAppend : List Char) : HeapString :=
  if stringToAppend.length = 0 then s
  else
    let t := heapStringReallocIfNeeded s (stringToAppend.length + s.length + 1)
    { contents := (blockWrite t.contents t.length stringToAppend).set
        (t.length + stringToAppend.length) nulChar,
      length := t.length + stringToAppend.length,
      capacity := t.capacity }

/-- heapStringAppendFormatV, applied to the already rendered output of the
format (vsnprintf is modelled by its result string): realloc to hold the
rendered text plus a terminator, write it, bump the length, terminate. -/
def heapStringAppendFormatV (s : HeapString) (rendered : List Char) : HeapString :=
  let t := heapStringReallocIfNeeded s (s.length + rendered.length + 1)
  { contents := (blockWrite t.contents t.length rendered).set
      (t.length + rendered.length) nulChar,
    length := t.length + rendered.length,
    capacity := t.capacity }

/-- heapStringAppendFormat forwards to heapStringAppendFormatV. -/
def heapStringAppendFormat (s : HeapString) (rendered : List Char) : HeapString :=
  heapStringAppendFormatV s rendered

def heapStringSetToCString (s : HeapString) (cString : List Char) : HeapString :=
  let t := heapStringReallocIfNeeded s (cString.length + 1)
  { contents := (blockWrite t.contents 0 cString).set cString.length nulChar,
    length := cString.length,
    capacity := t.capacity }

def heapStringAppendHeapString (target : HeapString) (source : HeapString) : HeapString :=
  let t := heapStringReallocIfNeeded target (target.length + source.length + 1)
  { contents := (blockWrite t.contents t.length (source.contents.take source.length)).set
      (t.length + source.length) nulChar,
    length := t.length + source.length,
    capacity := t.capacity }

/-! ## Request data model -/

inductive RequestParseState
  | Method | Path | Version | HeaderName | HeaderValue
  | CR | CRLF | CRLFCR | Body | Done
deriving DecidableEq

inductive PathState
  | Normal | Sep | Dot
deriving DecidableEq

inductive URLDecodeState
  | Normal | PercentFirstDigit | PercentSecondDigit
deriving DecidableEq

inductive URLDecodeType
  | WholeURL | Parameter
deriving DecidableEq

/-- struct PoolString: contents is the pointer into the pool, modelled as the
start offset (none models NULL). -/
structure PoolString where
  contents : Option Nat
  length : Nat
deriving DecidableEq

structure Header where
  name : PoolString
  value : PoolString
deriving DecidableEq

structure Warnings where
  headersStringPoolExhausted : Bool
  headersTooManyDropped : Bool
  methodTruncated : Bool
  versionTruncated : Bool
  pathTruncated : Bool
  bodyTruncated : Bool
deriving DecidableEq

/-- struct Request. The fixed arrays method[64], version[16], path[1024] and
pathDecoded[1024] are modelled by the list of bytes written so far (their
remaining bytes are NUL in the zero initialized source struct, so the written
prefix is exactly the C string content). -/
structure Request where
  method : List Char
  version : List Char
  path : List Char
  pathDecoded : List Char
  body : HeapString
  headers : List Header
  headersCount : Nat
  headersStringPool : List Char
  headersStringPoolOffset : Nat
  warnings : Warnings
  state : RequestParseState
deriving DecidableEq

def emptyPoolString : PoolString := { contents := none, length := 0 }

def emptyHeader : Header := { name := emptyPoolString, value := emptyPoolString }

/-- A Request as produced by calloc when the connection is accepted. -/
def Request.zeroInit : Request :=
  { method := [], version := [], path := [], pathDecoded := [],
    body := { contents := [], length := 0, capacity := 0 },
    headers := List.replicate REQUEST_MAX_HEADERS emptyHeader,
    headersCount := 0,
    headersStringPool := List.replicate REQUEST_HEADERS_MAX_MEMORY nulChar,
    headersStringPoolOffset := 0,
    warnings := { headersStringPoolExhausted := false, headersTooManyDropped := false,
                  methodTruncated := false, versionTruncated := false,
                  pathTruncated := false, bodyTruncated := false },
    state := RequestParseState.Method }

def getHeader (r : Request) (i : Nat) : Header := r.headers.getD i emptyHeader

/-! ## Header string pool -/

/-- poolStringStartNewString. In C the function overwrites the fields of the
passed PoolString; since it never reads them, the embedding returns the new
PoolString value together with the updated Request. -/
def poolStringStartNewString (r : Request) : PoolString × Request :=
  if r.headersStringPoolOffset = 0 then
    ({ contents := some 0, length := 0 }, r)
  else if REQUEST_HEADERS_MAX_MEMORY - 1 ≤ r.headersStringPoolOffset then
    ({ contents := none, length := 0 },
     { r with warnings := { r.warnings with headersStringPoolExhausted := true } })
  else
    ({ contents := some (r.headersStringPoolOffset + 1), length := 0 },
     { r with headersStringPoolOffset := r.headersStringPoolOffset + 1 })

/-- poolStringAppendChar. The none branch of the match corresponds to the
write through a NULL contents pointer in the source; theorem
pool_writes_stay_in_bounds_and_null_write_unreachable shows the guard makes
it unreachable during parsing, so its modelled effect is arbitrary (chosen
here: no pool write). -/
def poolStringAppendChar (r : Request) (s : PoolString) (c : Char) : Request × PoolString :=
  if REQUEST_HEADERS_MAX_MEMORY - 1 - sizeofNulLiteral ≤ r.headersStringPoolOffset then
    ({ r with warnings := { r.warnings with headersStringPoolExhausted := true } }, s)
  else
    match s.contents with
    | some start =>
      ({ r with headersStringPool := r.headersStringPool.set (start + s.length) c,
                headersStringPoolOffset := r.headersStringPoolOffset + 1 },
       { s with length := s.length + 1 })
    | none =>
      ({ r with headersStringPoolOffset := r.headersStringPoolOffset + 1 },
       { s with length := s.length + 1 })

/-- The C string a PoolString points at: pool bytes from the start offset up
to the first NUL (the pool is zero initialized and a NUL is left between
consecutive strings). A NULL contents pointer would crash strcasecmp in the
source; it is modelled as the empty string, which never equals a nonempty
header name. -/
def poolCString (r : Request) (ps : PoolString) : List Char :=
  match ps.contents with
  | some s => (r.headersStringPool.drop s).takeWhile (fun c => c != nulChar)
  | none => []

/-! ## Small C library helpers -/

/-- tolower on the ASCII letters, as used by strcasecmp in the C locale. -/
def charLower (c : Char) : Char :=
  if 'A' ≤ c ∧ c ≤ 'Z' then Char.ofNat (c.toNat + 32) else c

/-- strcasecmp(a, b) == 0. -/
def strCaseEq (a b : List Char) : Bool :=
  a.map charLower == b.map charLower

/-- headerInRequest: first header (in order) whose name matches case
insensitively. -/
def headerInRequest (headerName : List Char) (r : Request) : Option Header :=
  (r.headers.take r.headersCount).find? (fun h => strCaseEq (poolCString r h.name) headerName)

/-- isspace in the C locale. -/
def isCSpace (c : Char) : Bool :=
  c == ' ' || c == '\t' || c == '\n' || c == Char.ofNat 11 || c == Char.ofNat 12 || c == '\r'

def digitsVal : Nat → List Char → Nat
  | acc, [] => acc
  | acc, c :: cs => digitsVal (acc * 10 + (c.toNat - '0'.toNat)) cs

/-- sscanf(value, "%ld", ...): skip leading white space, optional sign, then
at least one decimal digit; parsing stops at the first non digit. Overflow
saturation of long is not modelled; the parser clamps the value right after,
so values beyond the clamp behave identically. -/
def sscanfLong (s : List Char) : Option Int :=
  let s1 := s.dropWhile (fun c => isCSpace c)
  match s1 with
  | '-' :: rest =>
    let ds := rest.takeWhile Char.isDigit
    if ds.isEmpty then none else some (-(digitsVal 0 ds : Int))
  | '+' :: rest =>
    let ds := rest.takeWhile Char.isDigit
    if ds.isEmpty then none else some ((digitsVal 0 ds : Int))
  | _ =>
    let ds := s1.takeWhile Char.isDigit
    if ds.isEmpty then none else some ((digitsVal 0 ds : Int))

def hexVal : Char → Option Nat
  | c =>
    if '0' ≤ c ∧ c ≤ '9' then some (c.toNat - '0'.toNat)
    else if 'a' ≤ c ∧ c ≤ 'f' then some (10 + c.toNat - 'a'.toNat)
    else if 'A' ≤ c ∧ c ≤ 'F' then some (10 + c.toNat - 'A'.toNat)
    else none

/-- sscanf(hexString, "%02x", ...) where hexString holds the two escape
characters: succeeds when the first character is a hex digit; a second hex
digit extends the value. Corner cases of scanf (leading white space, 0x
prefixes, signs) are not exercised by two character inputs of this shape
in the modelled paths. -/
def sscanfHex2 (d1 d2 : Char) : Option Nat :=
  match hexVal d1, hexVal d2 with
  | some v1, some v2 => some (16 * v1 + v2)
  | some v1, none => some v1
  | none, _ => none

/-! ## URLDecode -/

def URLDecodeLoop (cap : Nat) (t : URLDecodeType) :
    List Char → URLDecodeState → Char → Nat → List Char
  | [], _, _, _ => []
  | c :: rest, st, firstDigit, deci =>
    if cap - 1 ≤ deci then []
    else if t = URLDecodeType.Parameter ∧ c = '&' then []
    else
      match st with
      | URLDecodeState.Normal =>
        if c = '%' then URLDecodeLoop cap t rest URLDecodeState.PercentFirstDigit firstDigit deci
        else if c = '+' then ' ' :: URLDecodeLoop cap t rest URLDecodeState.Normal firstDigit (deci + 1)
        else c :: URLDecodeLoop cap t rest URLDecodeState.Normal firstDigit (deci + 1)
      | URLDecodeState.PercentFirstDigit =>
        URLDecodeLoop cap t rest URLDecodeState.PercentSecondDigit c deci
      | URLDecodeState.PercentSecondDigit =>
        match sscanfHex2 firstDigit c with
        | some v => Char.ofNat v :: URLDecodeLoop cap t rest URLDecodeState.Normal firstDigit (deci + 1)
        | none => URLDecodeLoop cap t rest URLDecodeState.Normal firstDigit deci

/-- URLDecode(encoded, decoded, decodedCapacity, type), returning the decoded
bytes. The C scan of the encoded C string stops at the first NUL. -/
def URLDecode (encoded : List Char) (decodedCapacity : Nat) (t : URLDecodeType) : List Char :=
  URLDecodeLoop decodedCapacity t (encoded.takeWhile (fun c => c != nulChar))
    URLDecodeState.Normal nulChar 0

/-! ## The request parser state machine -/

/-- The HeaderName case of the switch in requestParse. It is also reached
from the CRLF state, which replays the current byte with i-- after setting
the state to HeaderName. -/
def parseHeaderNameByte (r : Request) (c : Char) : Request :=
  if c = ':' then { r with state := RequestParseState.HeaderValue }
  else if c = '\r' then { r with state := RequestParseState.CR }
  else if r.headersCount < REQUEST_MAX_HEADERS then
    let slot := getHeader r r.headersCount
    let sr := if slot.name.contents = none then poolStringStartNewString r else (slot.name, r)
    let rp := poolStringAppendChar sr.2 sr.1 c
    { rp.1 with headers := rp.1.headers.set r.headersCount { slot with name := rp.2 } }
  else { r with warnings := { r.warnings with headersTooManyDropped := true } }

/-- The HeaderValue case of the switch in requestParse. -/
def parseHeaderValueByte (r : Request) (c : Char) : Request :=
  let slot := getHeader r r.headersCount
  if c = ' ' ∧ r.headersCount < REQUEST_MAX_HEADERS ∧ slot.value.length = 0 then r
  else if c = '\r' then
    let r1 := if r.headersCount < REQUEST_MAX_HEADERS ∧ 0 < slot.value.length
              then { r with headersCount := r.headersCount + 1 } else r
    { r1 with state := RequestParseState.CR }
  else if r.headersCount < REQUEST_MAX_HEADERS then
    let sr := if slot.value.contents = none then poolStringStartNewString r else (slot.value, r)
    let rp := poolStringAppendChar sr.2 sr.1 c
    { rp.1 with headers := rp.1.headers.set r.headersCount { slot with value := rp.2 } }
  else r

/-- The two clamp statements the source applies to a parsed Content-Length:
above to REQUEST_MAX_BODY_LENGTH, then below to 0. -/
def clampContentLength (contentLength0 : Int) : Int :=
  let contentLength1 : Int :=
    if (REQUEST_MAX_BODY_LENGTH : Int) < contentLength0 then (REQUEST_MAX_BODY_LENGTH : Int)
    else contentLength0
  if contentLength1 < 0 then 0 else contentLength1

/-- The body of the CRLFCR case once the final LF is seen: look for a
Content-Length header, clamp it above to REQUEST_MAX_BODY_LENGTH and below
to 0, allocate contentLength + 1 bytes when positive, and move to Body;
when the header is absent or unparsable the state stays Done. -/
def requestParseFinishHeaders (r : Request) : Request :=
  match headerInRequest "Content-Length".data r with
  | some contentLengthHeader =>
    match sscanfLong (poolCString r contentLengthHeader.value) with
    | some contentLength0 =>
      let contentLength : Int := clampContentLength contentLength0
      { r with
        body := { contents := if 0 < contentLength
                    then List.replicate (contentLength.toNat + 1) nulChar
                    else r.body.contents,
                  length := 0,
                  capacity := contentLength.toNat },
        state := RequestParseState.Body }
    | none => r
  | none => r

/-- One byte of requestParse: the switch on request->state. The i-- replay
of the CRLF case is modelled by running the HeaderName case on the same byte
after the state change; the Body case write through a NULL body.contents
(reachable only with Content-Length 0) is a List.set on the empty list. -/
def requestParseByte (r : Request) (c : Char) : Request :=
  match r.state with
  | RequestParseState.Method =>
    if c = ' ' then { r with state := RequestParseState.Path }
    else if r.method.length < 64 - 1 then { r with method := r.method ++ [c] }
    else { r with warnings := { r.warnings with methodTruncated := true } }
  | RequestParseState.Path =>
    if c = ' ' then
      { r with pathDecoded := URLDecode r.path 1024 URLDecodeType.WholeURL,
               state := RequestParseState.Version }
    else if r.path.length < 1024 - 1 then { r with path := r.path ++ [c] }
    else { r with warnings := { r.warnings with pathTruncated := true } }
  | RequestParseState.Version =>
    if c = '\r' then { r with state := RequestParseState.CR }
    else if r.version.length < 16 - 1 then { r with version := r.version ++ [c] }
    else { r with warnings := { r.warnings with versionTruncated := true } }
  | RequestParseState.HeaderName => parseHeaderNameByte r c
  | RequestParseState.HeaderValue => parseHeaderValueByte r c
  | RequestParseState.CR =>
    if c = '\n' then { r with state := RequestParseState.CRLF }
    else { r with state := RequestParseState.HeaderName }
  | RequestParseState.CRLF =>
    if c = '\r' then { r with state := RequestParseState.CRLFCR }
    else parseHeaderNameByte { r with state := RequestParseState.HeaderName } c
  | RequestParseState.CRLFCR =>
    if c = '\n' then requestParseFinishHeaders { r with state := RequestParseState.Done }
    else { r with state := RequestParseState.HeaderName }
  | RequestParseState.Body =>
    let b2 : HeapString := { r.body with contents := r.body.contents.set r.body.length c,
                                         length := r.body.length + 1 }
    if b2.length = b2.capacity then { r with body := b2, state := RequestParseState.Done }
    else { r with body := b2 }
  | RequestParseState.Done =>
    if r.body.contents = [] then r
    else { r with warnings := { r.warnings with bodyTruncated := true } }

/-- requestParse(request, requestFragment, requestFragmentLength): consume
the fragment one byte at a time. -/
def requestParse (r : Request) (requestFragment : List Char) : Request :=
  requestFragment.foldl requestParseByte r

/-! ## Path traversal check -/

/-- One character of the while loop of pathEscapesDocumentRoot; the
accumulator is (subdirDepth, state, isFirstChar). -/
def pathEscapesStep (acc : Int × PathState × Bool) (c : Char) : Int × PathState × Bool :=
  match acc with
  | (depth, st, isFirst) =>
    match st with
    | PathState.Normal =>
      if c = '/' ∨ c = '\\' then (depth, PathState.Sep, false)
      else if isFirst ∧ c = '.' then (depth, PathState.Dot, false)
      else if isFirst then (depth + 1, PathState.Normal, false)
      else (depth, PathState.Normal, false)
    | PathState.Sep =>
      if c = '.' then (depth, PathState.Dot, isFirst)
      else if c ≠ '/' ∧ c ≠ '\\' then (depth + 1, PathState.Normal, isFirst)
      else (depth, PathState.Sep, isFirst)
    | PathState.Dot =>
      if c = '/' then (depth, PathState.Sep, isFirst)
      else if c = '.' then (depth - 1, PathState.Normal, isFirst)
      else (depth, PathState.Normal, isFirst)

/-- pathEscapesDocumentRoot: scan the path, then test whether the final
depth is negative. -/
def pathEscapesDocumentRoot (path : List Char) : Bool :=
  decide ((path.foldl pathEscapesStep (0, PathState.Normal, true)).1 < 0)

/-! ## The claim side depth scan (refinement partner for claim C1)

specDepthGoesNegative formalizes the depth counter described by the spec:
+1 on each normal segment, -1 on each dotdot segment, dot segments and the
empty segments produced by duplicate separators ignored, and the test is
whether the running depth is negative at any point of the left to right
scan. -/

def isSepChar (c : Char) : Bool := c == '/' || c == '\\'

def segmentsGo : List Char → List Char → List (List Char)
  | [], cur => [cur.reverse]
  | c :: rest, cur =>
    if isSepChar c then cur.reverse :: segmentsGo rest []
    else segmentsGo rest (c :: cur)

def segDelta (seg : List Char) : Int :=
  if seg = ['.', '.'] then -1 else if seg = ['.'] then 0 else 1

def specDepthGoesNegative (path : List Char) : Bool :=
  let segs := (segmentsGo path []).filter (fun s => !s.isEmpty)
  (segs.foldl
    (fun acc seg => (acc.1 + segDelta seg, acc.2 || decide (acc.1 + segDelta seg < 0)))
    ((0 : Int), false)).2

/-! ## Responses -/

/-- struct Response. status, contentType and filenameToSend are strdup
duplicated C strings or NULL. -/
structure Response where
  code : Int
  body : HeapString
  filenameToSend : Option (List Char)
  status : Option (List Char)
  contentType : Option (List Char)
deriving DecidableEq

/-- responseAlloc: calloc of the body storage of exactly bodyCapacity zero
bytes when positive (note: no terminator slot is added here, unlike the
parser body allocation). -/
def responseAlloc (code : Int) (status contentType : Option (List Char))
    (bodyCapacity : Nat) : Response :=
  { code := code,
    body := { contents := List.replicate bodyCapacity nulChar, length := 0,
              capacity := bodyCapacity },
    filenameToSend := none,
    status := status,
    contentType := contentType }

/-- responseAllocHTMLWithStatus. Faithful to the source: the code and status
parameters are accepted and then ignored; the response is built with
responseAlloc(200, "OK", ...). -/
def responseAllocHTMLWithStatus (code : Int) (status : List Char) (html : List Char) : Response :=
  let r := responseAlloc 200 (some "OK".data) (some "text/html; charset=UTF-8".data) 0
  { r with body := heapStringSetToCString r.body html }

def responseAllocHTML (html : List Char) : Response :=
  responseAllocHTMLWithStatus 200 "OK".data html

/-- responseAllocServeFileFromRequestPath up to the filesystem boundary. The
remainder of the source function after the traversal guard consults the
filesystem (pathInformationGet, opendir, responseAllocWithFile, ...) and is
abstracted as the function argument fsRest; the guard branch itself is
modelled verbatim. -/
def responseAllocServeFileFromRequestPath
    (fsRest : List Char → List Char → List Char → Response)
    (requestPath requestPathDecoded documentRoot : List Char) : Response :=
  if pathEscapesDocumentRoot requestPathDecoded then
    responseAllocHTMLWithStatus 403 "Forbidden".data
      "<html><head><title>Forbidden</title></head><body>You are not allowed to access this URL</body></html>".data
  else fsRest requestPath requestPathDecoded documentRoot

/-! ## The in-memory send path -/

/-- glibc renders a NULL argument of a %s conversion as this string. -/
def nullString : List Char := "(null)".data

/-- The header block synthesized by the snprintf of sendResponseBody. The
literal chunks are exactly the pieces of the format string
"HTTP/1.0 %d %s\r\nContent-Type: %s\r\nContent-Length: %ld\r\nServer:
Embeddable Web Server/1.0.0\r\n\r\n" between its conversions (the version
macro is concatenated into the literal by the C preprocessor). -/
def responseHeaderString (code : Int) (status contentType : List Char)
    (bodyLength : Nat) : List Char :=
  "HTTP/1.0 ".data ++ (toString code).data ++ " ".data ++ status ++
  "\r\nContent-Type: ".data ++ contentType ++
  "\r\nContent-Length: ".data ++ (toString bodyLength).data ++
  "\r\nServer: Embeddable Web Server/1.0.0\r\n\r\n".data

/-- sendResponseBody, as the byte sequence pushed to the socket when the
sends succeed: header block then, when the body length is positive, the
first body.length bytes of the body block. When the synthesized header does
not fit the fixed 1024 byte responseHeader buffer, send would read past the
buffer (snprintf truncates the buffer but returns the untruncated length),
so the byte sequence is undetermined: none. -/
def sendResponseBody (resp : Response) : Option (List Char) :=
  let header := responseHeaderString resp.code (resp.status.getD nullString)
    (resp.contentType.getD nullString) resp.body.length
  if header.length < RESPONSE_HEADER_SIZE then
    some (header ++ (if 0 < resp.body.length then resp.body.contents.take resp.body.length else []))
  else none

/-! ## Claim side wire format definitions (refinement partners for C4) -/

/-- The header block exactly as claim C4 states it: status line,
Content-Type, Content-Length, blank line, and no other header lines. -/
def claimHeaderBlock (code : Int) (status contentType : List Char) (n : Nat) : List Char :=
  "HTTP/1.0 ".data ++ (toString code).data ++ " ".data ++ status ++
  "\r\nContent-Type: ".data ++ contentType ++
  "\r\nContent-Length: ".data ++ (toString n).data ++ "\r\n\r\n".data

/-- The claim C4 header block amended with the Server line the source also
sends, inserted before the terminating blank line. -/
def claimHeaderBlockWithServer (code : Int) (status contentType : List Char) (n : Nat) : List Char :=
  "HTTP/1.0 ".data ++ (toString code).data ++ " ".data ++ status ++
  "\r\nContent-Type: ".data ++ contentType ++
  "\r\nContent-Length: ".data ++ (toString n).data ++
  "\r\nServer: Embeddable Web Server/1.0.0\r\n".data ++ "\r\n".data

/-! ## Claims -/

/-- C1. The spec requires rejection of every decoded path whose running depth
counter would go negative at any point of the scan, and names "../a" (depth
dips to -1, final depth 0) as a path that must be refused. The source only
tests the final depth, so pathEscapesDocumentRoot accepts "../a" although it
escapes the document root: the code contradicts the stated security intent
of the check. -/
theorem pathEscapes_misses_mid_scan_dip :
    specDepthGoesNegative "../a".data = true
    ∧ pathEscapesDocumentRoot "../a".data = false := by
  constructor <;> decide

/-- C2. For a decoded request path that escapes the document root,
responseAllocServeFileFromRequestPath takes the traversal guard branch, but
the Response it builds has code 200, not the 403 required by the claim:
responseAllocHTMLWithStatus ignores its code and status parameters and
always calls responseAlloc(200, "OK", ...). The guard branch is independent
of the filesystem remainder fsRest. -/
theorem serveFile_traversal_yields_200_not_403 :
    pathEscapesDocumentRoot "../".data = true
    ∧ (responseAllocServeFileFromRequestPath (fun _ _ _ => responseAlloc 0 none none 0)
        "/x".data "../".data ".".data).code = 200
    ∧ ¬ (responseAllocServeFileFromRequestPath (fun _ _ _ => responseAlloc 0 none none 0)
        "/x".data "../".data ".".data).code = 403 := by
  refine ⟨by decide, rfl, by decide⟩

/-- C3. Chunk boundary independence: feeding any partition of a byte
sequence to requestParse chunk by chunk, starting from the zero initialized
Request, produces exactly the Request produced by feeding the whole
sequence at once. This holds because requestParse consumes its fragment
strictly one byte at a time (the i-- replay of the CRLF state is contained
inside the processing of the replayed byte). -/
theorem requestParse_chunk_independent (chunks : List (List Char)) :
    chunks.foldl requestParse Request.zeroInit
      = requestParse Request.zeroInit chunks.flatten := by
  suffices h : ∀ r : Request, chunks.foldl requestParse r = requestParse r chunks.flatten from
    h Request.zeroInit
  induction chunks with
  | nil => intro r; rfl
  | cons c cs ih =>
    intro r
    calc (c :: cs).foldl requestParse r
        = cs.foldl requestParse (requestParse r c) := rfl
      _ = requestParse (requestParse r c) cs.flatten := ih (requestParse r c)
      _ = requestParse r (c ++ cs.flatten) := (List.foldl_append _ _ _ _).symm
      _ = requestParse r (c :: cs).flatten := by rw [List.flatten_cons]

/-- The source format string carries the Server line fused into one literal;
regrouping it shows the synthesized header equals the claim block amended
with the Server line. -/
theorem respHeader_eq_claimWithServer (code : Int) (st ct : List Char) (n : Nat) :
    responseHeaderString code st ct n = claimHeaderBlockWithServer code st ct n := by
  unfold responseHeaderString claimHeaderBlockWithServer
  have h : ("\r\nServer: Embeddable Web Server/1.0.0\r\n\r\n".data : List Char)
      = "\r\nServer: Embeddable Web Server/1.0.0\r\n".data ++ "\r\n".data := by decide
  rw [h, ← List.append_assoc]

/-- C4 counterexample. For a concrete Response with body "hi!", the bytes
sent by sendResponseBody are not the claimed header block followed by the
body: the source also emits a Server header line, which the claim excludes
("with no other header lines"). -/
theorem sendResponseBody_not_claim_block :
    ¬ sendResponseBody
        { code := 200,
          body := { contents := "hi!".data ++ [nulChar], length := 3, capacity := 4 },
          filenameToSend := none, status := some "OK".data,
          contentType := some "text/html".data }
      = some (claimHeaderBlock 200 "OK".data "text/html".data 3 ++ "hi!".data) := by
  decide

/-- C4 amended. For every Response with a body of positive length, a non
NULL status and content type, and a synthesized header that fits the fixed
1024 byte responseHeader buffer, the bytes sent are exactly
"HTTP/1.0 code status CRLF Content-Type CRLF Content-Length CRLF
Server: Embeddable Web Server/1.0.0 CRLF CRLF" followed by exactly the
body bytes. -/
theorem sendResponseBody_wire_format (resp : Response) (st ct : List Char)
    (hst : resp.status = some st) (hct : resp.contentType = some ct)
    (hlen : 0 < resp.body.length)
    (hfit : (responseHeaderString resp.code st ct resp.body.length).length
      < RESPONSE_HEADER_SIZE) :
    sendResponseBody resp
      = some (claimHeaderBlockWithServer resp.code st ct resp.body.length
          ++ resp.body.contents.take resp.body.length) := by
  simp only [sendResponseBody, hst, hct, Option.getD_some]
  rw [if_pos hfit, if_pos hlen, respHeader_eq_claimWithServer]

/-- C4 witness: the amended wire format at the concrete Response of the
counterexample. -/
theorem sendResponseBody_wire_format_witness :
    sendResponseBody
        { code := 200,
          body := { contents := "hi!".data ++ [nulChar], length := 3, capacity := 4 },
          filenameToSend := none, status := some "OK".data,
          contentType := some "text/html".data }
      = some (claimHeaderBlockWithServer 200 "OK".data "text/html".data 3 ++ "hi!".data) := by
  have h := sendResponseBody_wire_format
    { code := 200,
      body := { contents := "hi!".data ++ [nulChar], length := 3, capacity := 4 },
      filenameToSend := none, status := some "OK".data,
      contentType := some "text/html".data }
    "OK".data "text/html".data rfl rfl (by decide) (by decide)
  exact h.trans (by decide)

/-- Consuming the LF of the CRLFCRLF terminator runs the Content-Length
inspection on the request with its state already set to Done. -/
theorem parseByte_crlfcr_lf (r : Request) (h : r.state = RequestParseState.CRLFCR) :
    requestParseByte r '\n'
      = requestParseFinishHeaders { r with state := RequestParseState.Done } := by
  simp [requestParseByte, h]

/-- Unfolding requestParseFinishHeaders when a Content-Length header is
found and parses. -/
theorem finishHeaders_of_parse (r : Request) (hdr : Header) (n : Int)
    (hfind : headerInRequest "Content-Length".data r = some hdr)
    (hparse : sscanfLong (poolCString r hdr.value) = some n) :
    requestParseFinishHeaders r
      = { r with
          body := { contents := if 0 < clampContentLength n
                      then List.replicate ((clampContentLength n).toNat + 1) nulChar
                      else r.body.contents,
                    length := 0,
                    capacity := (clampContentLength n).toNat },
          state := RequestParseState.Body } := by
  unfold requestParseFinishHeaders
  rw [hfind]
  dsimp only
  rw [hparse]

/-- requestParseFinishHeaders is the identity when no Content-Length header
is present. -/
theorem finishHeaders_of_none (r : Request)
    (hnone : headerInRequest "Content-Length".data r = none) :
    requestParseFinishHeaders r = r := by
  unfold requestParseFinishHeaders
  rw [hnone]

/-- requestParseFinishHeaders is the identity when the Content-Length value
does not parse as an integer. -/
theorem finishHeaders_of_unparsable (r : Request) (hdr : Header)
    (hfind : headerInRequest "Content-Length".data r = some hdr)
    (hparse : sscanfLong (poolCString r hdr.value) = none) :
    requestParseFinishHeaders r = r := by
  unfold requestParseFinishHeaders
  rw [hfind]
  dsimp only
  rw [hparse]

/-- For a nonnegative parsed value the source clamps are exactly the
minimum with REQUEST_MAX_BODY_LENGTH. -/
theorem clampContentLength_eq_min (n : Int) (hn : 0 ≤ n) :
    clampContentLength n = min n (REQUEST_MAX_BODY_LENGTH : Int) := by
  simp only [clampContentLength, REQUEST_MAX_BODY_LENGTH, min_def]
  split_ifs <;> omega

/-- For a nonpositive parsed value the source clamps produce 0. -/
theorem clampContentLength_eq_zero (n : Int) (hn : n ≤ 0) :
    clampContentLength n = 0 := by
  simp only [clampContentLength, REQUEST_MAX_BODY_LENGTH]
  split_ifs <;> omega

/-- C5. On consuming the terminating LF: when the first case insensitive
Content-Length header parses (sscanf %ld) as n with n nonnegative, the body
capacity becomes n clamped to REQUEST_MAX_BODY_LENGTH, body storage of that
size is allocated when it is positive (the source allocates capacity + 1
zeroed bytes so the body stays null terminated; a zero capacity allocates
nothing), the body length resets to 0 and the state becomes Body. When no
Content-Length header is present, or its value does not parse as an
integer, the state becomes Done and the body is left as it was (empty for
every request built by the parser, which never allocates a body before
this point). -/
theorem content_length_drives_body_state (r : Request)
    (hst : r.state = RequestParseState.CRLFCR) :
    (∀ (hdr : Header) (n : Int),
      headerInRequest "Content-Length".data r = some hdr →
      sscanfLong (poolCString r hdr.value) = some n →
      0 ≤ n →
      (requestParseByte r '\n').state = RequestParseState.Body
      ∧ (requestParseByte r '\n').body.capacity
          = (min n (REQUEST_MAX_BODY_LENGTH : Int)).toNat
      ∧ (requestParseByte r '\n').body.length = 0
      ∧ (0 < (min n (REQUEST_MAX_BODY_LENGTH : Int)).toNat →
          (requestParseByte r '\n').body.contents
            = List.replicate ((min n (REQUEST_MAX_BODY_LENGTH : Int)).toNat + 1) nulChar))
    ∧ ((headerInRequest "Content-Length".data r = none
        ∨ ∃ hdr, headerInRequest "Content-Length".data r = some hdr
            ∧ sscanfLong (poolCString r hdr.value) = none) →
      (requestParseByte r '\n').state = RequestParseState.Done
      ∧ (requestParseByte r '\n').body = r.body) := by
  rw [parseByte_crlfcr_lf r hst]
  constructor
  · intro hdr n hfind hparse hn
    rw [finishHeaders_of_parse { r with state := RequestParseState.Done } hdr n hfind hparse]
    rw [clampContentLength_eq_min n hn]
    refine ⟨rfl, rfl, rfl, fun hpos => ?_⟩
    by_cases hc : 0 < min n (REQUEST_MAX_BODY_LENGTH : Int)
    · dsimp only
      rw [if_pos hc]
    · rw [Int.toNat_of_nonpos (not_lt.mp hc)] at hpos
      exact absurd hpos (by decide)
  · intro hcase
    rcases hcase with hnone | ⟨hdr, hfind, hparse⟩
    · rw [finishHeaders_of_none { r with state := RequestParseState.Done } hnone]
      exact ⟨rfl, rfl⟩
    · rw [finishHeaders_of_unparsable { r with state := RequestParseState.Done } hdr hfind hparse]
      exact ⟨rfl, rfl⟩

/-- C5 witness: a concrete request with Content-Length 5 moves to Body with
capacity 5, and a concrete request without Content-Length moves to Done. -/
theorem content_length_drives_body_state_witness :
    (requestParseByte
        (requestParse Request.zeroInit "GET / HTTP/1.0\r\nContent-Length: 5\r\n\r".data)
        '\n').state = RequestParseState.Body
    ∧ (requestParseByte
        (requestParse Request.zeroInit "GET / HTTP/1.0\r\nContent-Length: 5\r\n\r".data)
        '\n').body.capacity = 5
    ∧ (requestParseByte
        (requestParse Request.zeroInit "GET / HTTP/1.0\r\nHost: h\r\n\r".data)
        '\n').state = RequestParseState.Done := by
  have h1 := (content_length_drives_body_state
    (requestParse Request.zeroInit "GET / HTTP/1.0\r\nContent-Length: 5\r\n\r".data)
    (by decide)).1
    { name := { contents := some 0, length := 14 },
      value := { contents := some 15, length := 1 } }
    5 (by decide) (by decide) (by decide)
  have h2 := (content_length_drives_body_state
    (requestParse Request.zeroInit "GET / HTTP/1.0\r\nHost: h\r\n\r".data)
    (by decide)).2 (Or.inl (by decide))
  exact ⟨h1.1, h1.2.1.trans (by decide), h2.1⟩

/-- C9. When the Content-Length value parses as zero or negative, the clamp
produces 0: after the terminating LF the state is Body, not Done, with body
capacity 0 and the body contents pointer untouched (no allocation). The
terminator alone therefore never completes such a request. -/
theorem content_length_zero_keeps_body_state (r : Request)
    (hst : r.state = RequestParseState.CRLFCR) (hdr : Header) (n : Int)
    (hfind : headerInRequest "Content-Length".data r = some hdr)
    (hparse : sscanfLong (poolCString r hdr.value) = some n)
    (hn : n ≤ 0) :
    (requestParseByte r '\n').state = RequestParseState.Body
    ∧ (requestParseByte r '\n').body.capacity = 0
    ∧ (requestParseByte r '\n').body.contents = r.body.contents
    ∧ ¬ (requestParseByte r '\n').state = RequestParseState.Done := by
  rw [parseByte_crlfcr_lf r hst]
  rw [finishHeaders_of_parse { r with state := RequestParseState.Done } hdr n hfind hparse]
  rw [clampContentLength_eq_zero n hn]
  refine ⟨rfl, rfl, ?_, fun hEq => nomatch hEq⟩
  dsimp only
  rw [if_neg (by decide : ¬ (0 : Int) < 0)]

/-- C9 witness: Content-Length: 0 at the terminator leaves the parser in
Body with an unallocated zero capacity body. -/
theorem content_length_zero_keeps_body_state_witness :
    (requestParseByte
        (requestParse Request.zeroInit "GET / HTTP/1.0\r\nContent-Length: 0\r\n\r".data)
        '\n').state = RequestParseState.Body
    ∧ (requestParseByte
        (requestParse Request.zeroInit "GET / HTTP/1.0\r\nContent-Length: 0\r\n\r".data)
        '\n').body.capacity = 0 := by
  have h := content_length_zero_keeps_body_state
    (requestParse Request.zeroInit "GET / HTTP/1.0\r\nContent-Length: 0\r\n\r".data)
    (by decide)
    { name := { contents := some 0, length := 14 },
      value := { contents := some 15, length := 1 } }
    0 (by decide) (by decide) (by decide)
  exact ⟨h.1, h.2.1⟩

/-! Lemmas about lists, realloc and the append invariant (C8). -/

theorem getD_set_self {α : Type} (l : List α) (i : Nat) (a d : α) (h : i < l.length) :
    (l.set i a).getD i d = a := by
  induction l generalizing i with
  | nil => simp at h
  | cons x xs ih =>
    cases i with
    | zero => rfl
    | succ n =>
      simp only [List.set_cons_succ, List.getD_cons_succ]
      exact ih n (by simpa using h)

theorem getD_set_ne {α : Type} (l : List α) (i j : Nat) (a d : α) (h : ¬ i = j) :
    (l.set i a).getD j d = l.getD j d := by
  induction l generalizing i j with
  | nil => simp [List.set]
  | cons x xs ih =>
    cases i with
    | zero =>
      cases j with
      | zero => exact absurd rfl h
      | succ m => rfl
    | succ n =>
      cases j with
      | zero => rfl
      | succ m =>
        simp only [List.set_cons_succ, List.getD_cons_succ]
        exact ih n m (fun hEq => h (by rw [hEq]))

theorem getD_replicate {α : Type} (n i : Nat) (a : α) :
    (List.replicate n a).getD i a = a := by
  induction n generalizing i with
  | zero => cases i <;> rfl
  | succ m ih =>
    cases i with
    | zero => rfl
    | succ k =>
      simp only [List.replicate, List.getD_cons_succ]
      exact ih k

theorem blockWrite_length (xs blk : List Char) (i : Nat) :
    (blockWrite blk i xs).length = blk.length := by
  induction xs generalizing blk i with
  | nil => rfl
  | cons c cs ih =>
    show (blockWrite (blk.set i c) (i + 1) cs).length = blk.length
    rw [ih (blk.set i c) (i + 1), List.length_set]

theorem nextPow2Go_ge (fuel : Nat) :
    ∀ p required : Nat, required ≤ p + fuel → 1 ≤ p → required ≤ nextPow2Go fuel p required := by
  induction fuel with
  | zero => intro p required hfuel hp; simpa [nextPow2Go] using hfuel
  | succ m ih =>
    intro p required hfuel hp
    unfold nextPow2Go
    split_ifs with h
    · exact ih (p * 2) required (by omega) (by omega)
    · omega

theorem heapStringNextAllocationSize_ge (required : Nat) :
    required ≤ heapStringNextAllocationSize required :=
  nextPow2Go_ge required 256 required (by omega) (by omega)

theorem realloc_length (s : HeapString) (m : Nat) :
    (heapStringReallocIfNeeded s m).length = s.length := by
  unfold heapStringReallocIfNeeded; split_ifs <;> rfl

theorem realloc_capacity (s : HeapString) (m : Nat) :
    m ≤ (heapStringReallocIfNeeded s m).capacity := by
  unfold heapStringReallocIfNeeded
  split_ifs with h
  · exact h
  · exact heapStringNextAllocationSize_ge m

theorem realloc_block (s : HeapString) (m : Nat)
    (hblk : s.capacity ≤ s.contents.length) (hlen : s.length < m) :
    (heapStringReallocIfNeeded s m).capacity
      ≤ (heapStringReallocIfNeeded s m).contents.length := by
  unfold heapStringReallocIfNeeded
  split_ifs with h
  · exact hblk
  · have hge : m ≤ heapStringNextAllocationSize m := heapStringNextAllocationSize_ge m
    simp only [List.length_append, List.length_take, List.length_replicate]
    omega

/-- The invariant claim C8 asserts after an append: the capacity strictly
exceeds the length and a NUL terminator sits at contents[length], inside
the allocated block. -/
def heapStringInvariant (t : HeapString) : Prop :=
  t.length < t.capacity ∧ t.capacity ≤ t.contents.length
  ∧ t.contents.getD t.length nulChar = nulChar

/-- The common write shape of the append operations: realloc to m, write
somewhere below index length + n, set the terminator at length + n, and set
the length to length + n. -/
theorem invariant_after_write (s : HeapString) (m n : Nat) (xs : List Char)
    (hblk : s.capacity ≤ s.contents.length)
    (hm : s.length + n + 1 ≤ m) :
    heapStringInvariant
      { contents := (blockWrite (heapStringReallocIfNeeded s m).contents
            (heapStringReallocIfNeeded s m).length xs).set
            ((heapStringReallocIfNeeded s m).length + n) nulChar,
        length := (heapStringReallocIfNeeded s m).length + n,
        capacity := (heapStringReallocIfNeeded s m).capacity } := by
  have hlen : (heapStringReallocIfNeeded s m).length = s.length := realloc_length s m
  have hcap : m ≤ (heapStringReallocIfNeeded s m).capacity := realloc_capacity s m
  have hblk2 : (heapStringReallocIfNeeded s m).capacity
      ≤ (heapStringReallocIfNeeded s m).contents.length :=
    realloc_block s m hblk (by omega)
  refine ⟨by dsimp only; omega, ?_, ?_⟩
  · dsimp only
    rw [List.length_set, blockWrite_length]
    exact hblk2
  · dsimp only
    apply getD_set_self
    rw [blockWrite_length]
    omega

/-- C8 counterexample. heapStringAppendString of a zero length input on a
freshly initialized HeapString is a complete no-op, so capacity (0) does
not strictly exceed length (0) and no addressable terminator exists, and
heapStringAppendFormatV of a zero length rendering is not allocation free:
it grows the fresh buffer to the 256 byte floor. -/
theorem append_empty_invariant_failure :
    ¬ ((heapStringAppendString heapStringInit []).length
        < (heapStringAppendString heapStringInit []).capacity)
    ∧ (heapStringAppendFormatV heapStringInit []).capacity = 256 := by
  exact ⟨by decide, by decide⟩

/-- C8 amended. For every HeapString whose allocated block covers its
capacity (true of every string the library builds): heapStringAppendChar,
heapStringAppendFormat/heapStringAppendFormatV (any rendered length, zero
included) and heapStringAppendHeapString (any source, empty included)
leave capacity strictly greater than length with an addressable NUL at
contents[length]; heapStringAppendString establishes the same for non
empty input, while for zero length input it is exactly a no-op (no
allocation), so it preserves the invariant only when it already held. -/
theorem append_invariant (s : HeapString) (hblk : s.capacity ≤ s.contents.length) :
    (∀ c : Char, heapStringInvariant (heapStringAppendChar s c))
    ∧ (∀ str : List Char, ¬ str = [] → heapStringInvariant (heapStringAppendString s str))
    ∧ heapStringAppendString s [] = s
    ∧ (∀ rendered : List Char, heapStringInvariant (heapStringAppendFormatV s rendered))
    ∧ (∀ src : HeapString, heapStringInvariant (heapStringAppendHeapString s src)) := by
  refine ⟨?_, ?_, ?_, ?_, ?_⟩
  · intro c
    unfold heapStringAppendChar
    exact invariant_after_write s (s.length + 2) 1 [c] hblk (by omega)
  · intro str hne
    unfold heapStringAppendString
    rw [if_neg (fun hz => hne (List.length_eq_zero.mp hz))]
    exact invariant_after_write s (str.length + s.length + 1) str.length str hblk (by omega)
  · unfold heapStringAppendString
    rfl
  · intro rendered
    unfold heapStringAppendFormatV
    exact invariant_after_write s (s.length + rendered.length + 1) rendered.length rendered
      hblk (by omega)
  · intro src
    unfold heapStringAppendHeapString
    exact invariant_after_write s (s.length + src.length + 1) src.length
      (src.contents.take src.length) hblk (by omega)

/-- C8 witness: a character append on the fresh empty string establishes
the invariant, and the zero length string append is a no-op on it. -/
theorem append_invariant_witness :
    heapStringInvariant (heapStringAppendChar heapStringInit 'a')
    ∧ heapStringAppendString heapStringInit [] = heapStringInit := by
  have h := append_invariant heapStringInit (by decide)
  exact ⟨h.1 'a', h.2.2.1⟩

/-! Frame lemmas for the pool operations. -/

theorem startNew_state (r : Request) : (poolStringStartNewString r).2.state = r.state := by
  unfold poolStringStartNewString; split_ifs <;> rfl

theorem startNew_headers (r : Request) :
    (poolStringStartNewString r).2.headers = r.headers := by
  unfold poolStringStartNewString; split_ifs <;> rfl

theorem startNew_headersCount (r : Request) :
    (poolStringStartNewString r).2.headersCount = r.headersCount := by
  unfold poolStringStartNewString; split_ifs <;> rfl

theorem startNew_body (r : Request) : (poolStringStartNewString r).2.body = r.body := by
  unfold poolStringStartNewString; split_ifs <;> rfl

theorem startNew_pool (r : Request) :
    (poolStringStartNewString r).2.headersStringPool = r.headersStringPool := by
  unfold poolStringStartNewString; split_ifs <;> rfl

theorem appendChar_state (r : Request) (ps : PoolString) (c : Char) :
    (poolStringAppendChar r ps c).1.state = r.state := by
  obtain ⟨pc, pl⟩ := ps
  unfold poolStringAppendChar; split_ifs
  · rfl
  · cases pc <;> rfl

theorem appendChar_headers (r : Request) (ps : PoolString) (c : Char) :
    (poolStringAppendChar r ps c).1.headers = r.headers := by
  obtain ⟨pc, pl⟩ := ps
  unfold poolStringAppendChar; split_ifs
  · rfl
  · cases pc <;> rfl

theorem appendChar_headersCount (r : Request) (ps : PoolString) (c : Char) :
    (poolStringAppendChar r ps c).1.headersCount = r.headersCount := by
  obtain ⟨pc, pl⟩ := ps
  unfold poolStringAppendChar; split_ifs
  · rfl
  · cases pc <;> rfl

theorem appendChar_body (r : Request) (ps : PoolString) (c : Char) :
    (poolStringAppendChar r ps c).1.body = r.body := by
  obtain ⟨pc, pl⟩ := ps
  unfold poolStringAppendChar; split_ifs
  · rfl
  · cases pc <;> rfl

/-- C6 counterexample. In "A:  b" the value holds two leading spaces; the
claim says only the first is skipped and the second accumulated (value
" b", length 2), but the source skips every space while the value is still
empty: the committed value is "b" with length 1. -/
theorem header_value_double_space_skipped :
    (requestParse Request.zeroInit "GET / HTTP/1.0\r\nA:  b\r\n\r\n".data).headersCount = 1
    ∧ (getHeader (requestParse Request.zeroInit "GET / HTTP/1.0\r\nA:  b\r\n\r\n".data) 0).value.length = 1
    ∧ poolCString (requestParse Request.zeroInit "GET / HTTP/1.0\r\nA:  b\r\n\r\n".data)
        (getHeader (requestParse Request.zeroInit "GET / HTTP/1.0\r\nA:  b\r\n\r\n".data) 0).value
      = ['b'] := by
  refine ⟨by decide, by decide, by decide⟩

/-- C6 amended. In state HeaderValue the parser skips every space arriving
while the accumulated value is still empty and the header count is under
REQUEST_MAX_HEADERS (so a second leading space is also skipped, not
accumulated); for any byte other than CR it stays in HeaderValue
(accumulating when room remains); and on CR it commits the header,
incrementing headersCount, exactly when the accumulated value is non empty
and headersCount is below REQUEST_MAX_HEADERS. -/
theorem header_value_skip_and_commit (r : Request) (c : Char)
    (h : r.state = RequestParseState.HeaderValue) :
    (c = ' ' → r.headersCount < REQUEST_MAX_HEADERS →
      (getHeader r r.headersCount).value.length = 0 → requestParseByte r c = r)
    ∧ (¬ c = '\r' → (requestParseByte r c).state = RequestParseState.HeaderValue)
    ∧ (c = '\r' →
        (requestParseByte r c).state = RequestParseState.CR
        ∧ (requestParseByte r c).headersCount
            = (if r.headersCount < REQUEST_MAX_HEADERS
                  ∧ 0 < (getHeader r r.headersCount).value.length
               then r.headersCount + 1 else r.headersCount)) := by
  have hb : requestParseByte r c = parseHeaderValueByte r c := by
    simp [requestParseByte, h]
  rw [hb]
  unfold parseHeaderValueByte
  dsimp only
  refine ⟨?_, ?_, ?_⟩
  · intro hsp hcount hlen
    rw [if_pos ⟨hsp, hcount, hlen⟩]
  · intro hcr
    by_cases hskip : c = ' ' ∧ r.headersCount < REQUEST_MAX_HEADERS
        ∧ (getHeader r r.headersCount).value.length = 0
    · rw [if_pos hskip]; exact h
    · rw [if_neg hskip, if_neg hcr]
      by_cases hcount : r.headersCount < REQUEST_MAX_HEADERS
      · rw [if_pos hcount]
        by_cases hnone : (getHeader r r.headersCount).value.contents = none
        · rw [if_pos hnone]
          dsimp only
          rw [appendChar_state, startNew_state]
          exact h
        · rw [if_neg hnone]
          dsimp only
          rw [appendChar_state]
          exact h
      · rw [if_neg hcount]; exact h
  · intro hcr
    have hskip : ¬ (c = ' ' ∧ r.headersCount < REQUEST_MAX_HEADERS
        ∧ (getHeader r r.headersCount).value.length = 0) := by
      rintro ⟨hsp, -, -⟩
      rw [hcr] at hsp
      exact absurd hsp (by decide)
    rw [if_neg hskip, if_pos hcr]
    constructor
    · rfl
    · split_ifs <;> rfl

/-- C6 witness: with the empty value of a freshly opened header, a space
byte leaves the request entirely unchanged, and a CR byte with a non empty
value commits it. -/
theorem header_value_skip_and_commit_witness :
    requestParseByte (requestParse Request.zeroInit "GET / HTTP/1.0\r\nA:".data) ' '
      = requestParse Request.zeroInit "GET / HTTP/1.0\r\nA:".data
    ∧ (requestParseByte (requestParse Request.zeroInit "GET / HTTP/1.0\r\nA: b".data) '\r').headersCount
      = 1 := by
  have h1 := (header_value_skip_and_commit
    (requestParse Request.zeroInit "GET / HTTP/1.0\r\nA:".data) ' ' (by decide)).1
    rfl (by decide) (by decide)
  have h2 := ((header_value_skip_and_commit
    (requestParse Request.zeroInit "GET / HTTP/1.0\r\nA: b".data) '\r' (by decide)).2.2
    rfl).2
  exact ⟨h1, h2.trans (by decide)⟩

/-- C7. Once the parser is in the Done state, a further byte leaves the
Request unchanged except possibly setting the bodyTruncated warning (set
exactly when a body block was allocated); the byte is discarded. -/
theorem done_state_frame (r : Request) (c : Char) (h : r.state = RequestParseState.Done) :
    requestParseByte r c = r
    ∨ requestParseByte r c
        = { r with warnings := { r.warnings with bodyTruncated := true } } := by
  by_cases hb : r.body.contents = []
  · left; simp [requestParseByte, h, hb]
  · right; simp [requestParseByte, h, hb]

/-- C7 witness: a concrete completed request absorbs a stray byte without
change. -/
theorem done_state_frame_witness :
    requestParseByte (requestParse Request.zeroInit "GET / HTTP/1.0\r\n\r\n".data) 'x'
        = requestParse Request.zeroInit "GET / HTTP/1.0\r\n\r\n".data
    ∨ requestParseByte (requestParse Request.zeroInit "GET / HTTP/1.0\r\n\r\n".data) 'x'
        = { requestParse Request.zeroInit "GET / HTTP/1.0\r\n\r\n".data with
            warnings := { (requestParse Request.zeroInit "GET / HTTP/1.0\r\n\r\n".data).warnings
              with bodyTruncated := true } } :=
  done_state_frame (requestParse Request.zeroInit "GET / HTTP/1.0\r\n\r\n".data) 'x' (by decide)

/-! ## Pool safety (C10): the invariant of the header string pool -/

/-- A PoolString is consistent with the pool offset: the bytes written
through it occupy indices startOffset .. startOffset + length - 1, all at
or below the current pool offset. -/
def psInv (ps : PoolString) (off : Nat) : Prop :=
  ∀ st : Nat, ps.contents = some st → st + ps.length ≤ off

/-- The pool invariant of a Request: 64 header slots, pool offset at most
REQUEST_HEADERS_MAX_MEMORY - 1, and every header string consistent with
the offset. -/
def requestPoolInv (r : Request) : Prop :=
  r.headers.length = REQUEST_MAX_HEADERS
  ∧ r.headersStringPoolOffset ≤ REQUEST_HEADERS_MAX_MEMORY - 1
  ∧ ∀ i : Nat, psInv (getHeader r i).name r.headersStringPoolOffset
      ∧ psInv (getHeader r i).value r.headersStringPoolOffset

theorem psInv_mono (ps : PoolString) (a b : Nat) (hab : a ≤ b) (h : psInv ps a) :
    psInv ps b :=
  fun st hst => le_trans (h st hst) hab

theorem inv_of_same_pool (r' r : Request) (hh : r'.headers = r.headers)
    (ho : r'.headersStringPoolOffset = r.headersStringPoolOffset)
    (h : requestPoolInv r) : requestPoolInv r' := by
  obtain ⟨h1, h2, h3⟩ := h
  refine ⟨by rw [hh]; exact h1, by rw [ho]; exact h2, fun i => ?_⟩
  unfold getHeader
  rw [hh, ho]
  exact h3 i

theorem zeroInit_inv : requestPoolInv Request.zeroInit := by
  refine ⟨by decide, by decide, fun i => ?_⟩
  have hz : getHeader Request.zeroInit i = emptyHeader := by
    unfold getHeader Request.zeroInit
    exact getD_replicate REQUEST_MAX_HEADERS i emptyHeader
  rw [hz]
  constructor
  · intro st hst
    simp [emptyHeader, emptyPoolString] at hst
  · intro st hst
    simp [emptyHeader, emptyPoolString] at hst

theorem startNew_offset_mono (r : Request) :
    r.headersStringPoolOffset ≤ (poolStringStartNewString r).2.headersStringPoolOffset := by
  unfold poolStringStartNewString
  split_ifs <;> dsimp only <;> omega

theorem startNew_offset_bound (r : Request)
    (h : r.headersStringPoolOffset ≤ REQUEST_HEADERS_MAX_MEMORY - 1) :
    (poolStringStartNewString r).2.headersStringPoolOffset
      ≤ REQUEST_HEADERS_MAX_MEMORY - 1 := by
  unfold poolStringStartNewString
  split_ifs with h1 h2
  · exact h
  · exact h
  · dsimp only
    simp only [REQUEST_HEADERS_MAX_MEMORY] at h2 ⊢
    omega

theorem startNew_psInv (r : Request) :
    psInv (poolStringStartNewString r).1 (poolStringStartNewString r).2.headersStringPoolOffset := by
  unfold poolStringStartNewString
  split_ifs with h1 h2 <;> intro st hst
  · obtain rfl : 0 = st := Option.some.inj hst
    dsimp only
    omega
  · exact absurd hst (fun h => nomatch h)
  · obtain rfl : r.headersStringPoolOffset + 1 = st := Option.some.inj hst
    dsimp only
    omega

/-- When poolStringStartNewString hands out a NULL contents pointer, the
pool offset has already reached REQUEST_HEADERS_MAX_MEMORY - 1. -/
theorem startNew_none_offset (r : Request)
    (h : (poolStringStartNewString r).1.contents = none) :
    REQUEST_HEADERS_MAX_MEMORY - 1 ≤ (poolStringStartNewString r).2.headersStringPoolOffset := by
  by_cases h1 : r.headersStringPoolOffset = 0
  · exfalso
    unfold poolStringStartNewString at h
    rw [if_pos h1] at h
    exact nomatch h
  by_cases h2 : REQUEST_HEADERS_MAX_MEMORY - 1 ≤ r.headersStringPoolOffset
  · unfold poolStringStartNewString
    rw [if_neg h1, if_pos h2]
    exact h2
  · exfalso
    unfold poolStringStartNewString at h
    rw [if_neg h1, if_neg h2] at h
    exact nomatch h

theorem appendChar_offset_mono (r : Request) (ps : PoolString) (c : Char) :
    r.headersStringPoolOffset ≤ (poolStringAppendChar r ps c).1.headersStringPoolOffset := by
  obtain ⟨pc, pl⟩ := ps
  unfold poolStringAppendChar
  split_ifs
  · exact Nat.le_refl _
  · cases pc <;> dsimp only <;> omega

theorem appendChar_offset_bound (r : Request) (ps : PoolString) (c : Char)
    (h : r.headersStringPoolOffset ≤ REQUEST_HEADERS_MAX_MEMORY - 1) :
    (poolStringAppendChar r ps c).1.headersStringPoolOffset
      ≤ REQUEST_HEADERS_MAX_MEMORY - 1 := by
  obtain ⟨pc, pl⟩ := ps
  unfold poolStringAppendChar
  split_ifs with hg
  · exact h
  · simp only [REQUEST_HEADERS_MAX_MEMORY, sizeofNulLiteral] at hg ⊢
    cases pc <;> dsimp only <;> omega

theorem appendChar_psInv (r : Request) (ps : PoolString) (c : Char)
    (h : psInv ps r.headersStringPoolOffset) :
    psInv (poolStringAppendChar r ps c).2 (poolStringAppendChar r ps c).1.headersStringPoolOffset := by
  obtain ⟨pc, pl⟩ := ps
  unfold poolStringAppendChar
  split_ifs with hg
  · exact h
  · cases pc with
    | none => exact fun st hst => nomatch hst
    | some s0 =>
      intro st hst
      obtain rfl : s0 = st := Option.some.inj hst
      have hs := h s0 rfl
      dsimp only at hs ⊢
      omega

/-- The early return of poolStringAppendChar once the guard offset is
reached: only the exhaustion warning is set, nothing else changes and no
pool write happens. -/
theorem appendChar_guard_eq (r : Request) (ps : PoolString) (c : Char)
    (h : REQUEST_HEADERS_MAX_MEMORY - 1 - sizeofNulLiteral ≤ r.headersStringPoolOffset) :
    poolStringAppendChar r ps c
      = ({ r with warnings := { r.warnings with headersStringPoolExhausted := true } }, ps) := by
  unfold poolStringAppendChar
  rw [if_pos h]

theorem parseHeaderNameByte_inv (r : Request) (c : Char) (hinv : requestPoolInv r) :
    requestPoolInv (parseHeaderNameByte r c) := by
  unfold parseHeaderNameByte
  by_cases hcolon : c = ':'
  · rw [if_pos hcolon]; exact inv_of_same_pool _ r rfl rfl hinv
  rw [if_neg hcolon]
  by_cases hcr : c = '\r'
  · rw [if_pos hcr]; exact inv_of_same_pool _ r rfl rfl hinv
  rw [if_neg hcr]
  by_cases hcount : r.headersCount < REQUEST_MAX_HEADERS
  swap
  · rw [if_neg hcount]; exact inv_of_same_pool _ r rfl rfl hinv
  rw [if_pos hcount]
  dsimp only
  set slot := getHeader r r.headersCount with hslot
  set sr := if slot.name.contents = none then poolStringStartNewString r else (slot.name, r)
    with hsr
  set rp := poolStringAppendChar sr.2 sr.1 c with hrp
  have hsrh : sr.2.headers = r.headers := by
    rw [hsr]; split_ifs
    · exact startNew_headers r
    · rfl
  have hsro1 : r.headersStringPoolOffset ≤ sr.2.headersStringPoolOffset := by
    rw [hsr]; split_ifs
    · exact startNew_offset_mono r
    · exact Nat.le_refl _
  have hsrob : sr.2.headersStringPoolOffset ≤ REQUEST_HEADERS_MAX_MEMORY - 1 := by
    rw [hsr]; split_ifs
    · exact startNew_offset_bound r hinv.2.1
    · exact hinv.2.1
  have hsrinv : psInv sr.1 sr.2.headersStringPoolOffset := by
    rw [hsr]; split_ifs with hn
    · exact startNew_psInv r
    · exact (hinv.2.2 r.headersCount).1
  have hrph : rp.1.headers = r.headers := by
    rw [hrp, appendChar_headers]; exact hsrh
  have hrpo1 : sr.2.headersStringPoolOffset ≤ rp.1.headersStringPoolOffset := by
    rw [hrp]; exact appendChar_offset_mono _ _ _
  have hrpob : rp.1.headersStringPoolOffset ≤ REQUEST_HEADERS_MAX_MEMORY - 1 := by
    rw [hrp]; exact appendChar_offset_bound _ _ _ hsrob
  have hrpinv : psInv rp.2 rp.1.headersStringPoolOffset := by
    rw [hrp]; exact appendChar_psInv _ _ _ hsrinv
  refine ⟨?_, hrpob, fun i => ?_⟩
  · dsimp only
    rw [List.length_set, hrph]
    exact hinv.1
  · unfold getHeader
    dsimp only
    rw [hrph]
    by_cases hi : r.headersCount = i
    · subst hi
      rw [getD_set_self _ _ _ _ (by rw [hinv.1]; exact hcount)]
      refine ⟨hrpinv, ?_⟩
      exact psInv_mono _ _ _ (le_trans hsro1 hrpo1) (hinv.2.2 r.headersCount).2
    · rw [getD_set_ne _ _ _ _ _ hi]
      exact ⟨psInv_mono _ _ _ (le_trans hsro1 hrpo1) (hinv.2.2 i).1,
             psInv_mono _ _ _ (le_trans hsro1 hrpo1) (hinv.2.2 i).2⟩

theorem parseHeaderValueByte_inv (r : Request) (c : Char) (hinv : requestPoolInv r) :
    requestPoolInv (parseHeaderValueByte r c) := by
  unfold parseHeaderValueByte
  dsimp only
  by_cases hskip : c = ' ' ∧ r.headersCount < REQUEST_MAX_HEADERS
      ∧ (getHeader r r.headersCount).value.length = 0
  · rw [if_pos hskip]; exact hinv
  rw [if_neg hskip]
  by_cases hcr : c = '\r'
  · rw [if_pos hcr]
    refine inv_of_same_pool _ r ?_ ?_ hinv
    · split_ifs <;> rfl
    · split_ifs <;> rfl
  rw [if_neg hcr]
  by_cases hcount : r.headersCount < REQUEST_MAX_HEADERS
  swap
  · rw [if_neg hcount]; exact hinv
  rw [if_pos hcount]
  set slot := getHeader r r.headersCount with hslot
  set sr := if slot.value.contents = none then poolStringStartNewString r else (slot.value, r)
    with hsr
  set rp := poolStringAppendChar sr.2 sr.1 c with hrp
  have hsrh : sr.2.headers = r.headers := by
    rw [hsr]; split_ifs
    · exact startNew_headers r
    · rfl
  have hsro1 : r.headersStringPoolOffset ≤ sr.2.headersStringPoolOffset := by
    rw [hsr]; split_ifs
    · exact startNew_offset_mono r
    · exact Nat.le_refl _
  have hsrob : sr.2.headersStringPoolOffset ≤ REQUEST_HEADERS_MAX_MEMORY - 1 := by
    rw [hsr]; split_ifs
    · exact startNew_offset_bound r hinv.2.1
    · exact hinv.2.1
  have hsrinv : psInv sr.1 sr.2.headersStringPoolOffset := by
    rw [hsr]; split_ifs with hn
    · exact startNew_psInv r
    · exact (hinv.2.2 r.headersCount).2
  have hrph : rp.1.headers = r.headers := by
    rw [hrp, appendChar_headers]; exact hsrh
  have hrpo1 : sr.2.headersStringPoolOffset ≤ rp.1.headersStringPoolOffset := by
    rw [hrp]; exact appendChar_offset_mono _ _ _
  have hrpob : rp.1.headersStringPoolOffset ≤ REQUEST_HEADERS_MAX_MEMORY - 1 := by
    rw [hrp]; exact appendChar_offset_bound _ _ _ hsrob
  have hrpinv : psInv rp.2 rp.1.headersStringPoolOffset := by
    rw [hrp]; exact appendChar_psInv _ _ _ hsrinv
  refine ⟨?_, hrpob, fun i => ?_⟩
  · dsimp only
    rw [List.length_set, hrph]
    exact hinv.1
  · unfold getHeader
    dsimp only
    rw [hrph]
    by_cases hi : r.headersCount = i
    · subst hi
      rw [getD_set_self _ _ _ _ (by rw [hinv.1]; exact hcount)]
      refine ⟨?_, hrpinv⟩
      exact psInv_mono _ _ _ (le_trans hsro1 hrpo1) (hinv.2.2 r.headersCount).1
    · rw [getD_set_ne _ _ _ _ _ hi]
      exact ⟨psInv_mono _ _ _ (le_trans hsro1 hrpo1) (hinv.2.2 i).1,
             psInv_mono _ _ _ (le_trans hsro1 hrpo1) (hinv.2.2 i).2⟩

theorem finishHeaders_inv (r : Request) (hinv : requestPoolInv r) :
    requestPoolInv (requestParseFinishHeaders r) := by
  unfold requestParseFinishHeaders
  split
  · split
    · exact inv_of_same_pool _ r rfl rfl hinv
    · exact hinv
  · exact hinv

theorem requestParseByte_inv (r : Request) (c : Char) (hinv : requestPoolInv r) :
    requestPoolInv (requestParseByte r c) := by
  unfold requestParseByte
  split
  · split_ifs <;> exact inv_of_same_pool _ r rfl rfl hinv
  · split_ifs <;> exact inv_of_same_pool _ r rfl rfl hinv
  · split_ifs <;> exact inv_of_same_pool _ r rfl rfl hinv
  · exact parseHeaderNameByte_inv r c hinv
  · exact parseHeaderValueByte_inv r c hinv
  · split_ifs <;> exact inv_of_same_pool _ r rfl rfl hinv
  · split_ifs
    · exact inv_of_same_pool _ r rfl rfl hinv
    · exact parseHeaderNameByte_inv _ c (inv_of_same_pool _ r rfl rfl hinv)
  · split_ifs
    · exact finishHeaders_inv _ (inv_of_same_pool _ r rfl rfl hinv)
    · exact inv_of_same_pool _ r rfl rfl hinv
  · dsimp only
    split_ifs <;> exact inv_of_same_pool _ r rfl rfl hinv
  · split_ifs <;> exact inv_of_same_pool _ r rfl rfl hinv

theorem requestParse_inv (bytes : List Char) :
    ∀ r : Request, requestPoolInv r → requestPoolInv (requestParse r bytes) := by
  induction bytes with
  | nil => exact fun r h => h
  | cons c cs ih => exact fun r h => ih (requestParseByte r c) (requestParseByte_inv r c h)

theorem parseHeaderNameByte_offset_mono (r : Request) (c : Char) :
    r.headersStringPoolOffset ≤ (parseHeaderNameByte r c).headersStringPoolOffset := by
  unfold parseHeaderNameByte
  dsimp only
  split_ifs
  · exact Nat.le_refl _
  · exact Nat.le_refl _
  · exact le_trans (startNew_offset_mono r) (appendChar_offset_mono _ _ _)
  · exact appendChar_offset_mono _ _ _
  · exact Nat.le_refl _

theorem parseHeaderValueByte_offset_mono (r : Request) (c : Char) :
    r.headersStringPoolOffset ≤ (parseHeaderValueByte r c).headersStringPoolOffset := by
  unfold parseHeaderValueByte
  dsimp only
  split_ifs
  · exact Nat.le_refl _
  · exact Nat.le_refl _
  · exact Nat.le_refl _
  · exact le_trans (startNew_offset_mono r) (appendChar_offset_mono _ _ _)
  · exact appendChar_offset_mono _ _ _
  · exact Nat.le_refl _

theorem finishHeaders_offset (r : Request) :
    (requestParseFinishHeaders r).headersStringPoolOffset = r.headersStringPoolOffset := by
  unfold requestParseFinishHeaders
  split
  · split
    · rfl
    · rfl
  · rfl

theorem parseByte_offset_mono (r : Request) (c : Char) :
    r.headersStringPoolOffset ≤ (requestParseByte r c).headersStringPoolOffset := by
  unfold requestParseByte
  split
  · split_ifs <;> exact Nat.le_refl _
  · split_ifs <;> exact Nat.le_refl _
  · split_ifs <;> exact Nat.le_refl _
  · exact parseHeaderNameByte_offset_mono r c
  · exact parseHeaderValueByte_offset_mono r c
  · split_ifs <;> exact Nat.le_refl _
  · split_ifs
    · exact Nat.le_refl _
    · exact parseHeaderNameByte_offset_mono { r with state := RequestParseState.HeaderName } c
  · split_ifs
    · exact le_of_eq (finishHeaders_offset { r with state := RequestParseState.Done }).symm
    · exact Nat.le_refl _
  · dsimp only
    split_ifs <;> exact Nat.le_refl _
  · split_ifs <;> exact Nat.le_refl _

/-- C10. Pool safety across parsing: for any byte stream parsed from the
zero initialized Request, (i) the pool offset never exceeds
REQUEST_HEADERS_MAX_MEMORY - 1, and every header string occupies indices
strictly inside the 8192 byte pool (each of its written bytes sits at
index startOffset + k with k < length, and startOffset + length <
REQUEST_HEADERS_MAX_MEMORY, so in particular the index poolStringAppendChar
writes next also stays strictly inside whenever its guard lets the write
happen); (ii) whenever poolStringStartNewString sets a NULL contents
pointer the pool offset is already at least REQUEST_HEADERS_MAX_MEMORY - 1;
(iii) the pool offset never decreases across a parse step; and (iv) at any
offset at or beyond the guard REQUEST_HEADERS_MAX_MEMORY - 1 -
sizeof NUL, poolStringAppendChar takes the early return that only sets the
exhaustion warning. Together (ii), (iii), (iv) make the write through a
NULL contents pointer unreachable: after a NULL handout the offset stays
at least 8191 > 8187, so every subsequent append early-returns. -/
theorem pool_writes_stay_in_bounds_and_null_write_unreachable :
    (∀ bytes : List Char,
      (requestParse Request.zeroInit bytes).headersStringPoolOffset
        ≤ REQUEST_HEADERS_MAX_MEMORY - 1
      ∧ ∀ i st : Nat,
          ((getHeader (requestParse Request.zeroInit bytes) i).name.contents = some st →
            st + (getHeader (requestParse Request.zeroInit bytes) i).name.length
              < REQUEST_HEADERS_MAX_MEMORY)
          ∧ ((getHeader (requestParse Request.zeroInit bytes) i).value.contents = some st →
            st + (getHeader (requestParse Request.zeroInit bytes) i).value.length
              < REQUEST_HEADERS_MAX_MEMORY))
    ∧ (∀ r : Request, (poolStringStartNewString r).1.contents = none →
        REQUEST_HEADERS_MAX_MEMORY - 1 ≤ (poolStringStartNewString r).2.headersStringPoolOffset)
    ∧ (∀ (r : Request) (c : Char),
        r.headersStringPoolOffset ≤ (requestParseByte r c).headersStringPoolOffset)
    ∧ (∀ (r : Request) (ps : PoolString) (c : Char),
        REQUEST_HEADERS_MAX_MEMORY - 1 - sizeofNulLiteral ≤ r.headersStringPoolOffset →
        poolStringAppendChar r ps c
          = ({ r with warnings := { r.warnings with headersStringPoolExhausted := true } },
             ps)) := by
  have hlt : REQUEST_HEADERS_MAX_MEMORY - 1 < REQUEST_HEADERS_MAX_MEMORY := by decide
  refine ⟨fun bytes => ?_, startNew_none_offset, parseByte_offset_mono, appendChar_guard_eq⟩
  have h := requestParse_inv bytes Request.zeroInit zeroInit_inv
  refine ⟨h.2.1, fun i st => ⟨fun hc => ?_, fun hc => ?_⟩⟩
  · exact lt_of_le_of_lt (le_trans ((h.2.2 i).1 st hc) h.2.1) hlt
  · exact lt_of_le_of_lt (le_trans ((h.2.2 i).2 st hc) h.2.1) hlt

/-- C10 witness: the bound at a concrete parse, the guard based early
return at a concrete request whose pool offset sits at the limit, and the
NULL handout fact at the same request. -/
theorem pool_safety_witness :
    (requestParse Request.zeroInit "Host: example\r\n".data).headersStringPoolOffset
      ≤ REQUEST_HEADERS_MAX_MEMORY - 1
    ∧ poolStringAppendChar
        { Request.zeroInit with headersStringPoolOffset := 8191 } emptyPoolString 'q'
      = ({ { Request.zeroInit with headersStringPoolOffset := 8191 } with
            warnings := { { Request.zeroInit with headersStringPoolOffset := 8191 }.warnings
              with headersStringPoolExhausted := true } }, emptyPoolString)
    ∧ REQUEST_HEADERS_MAX_MEMORY - 1
        ≤ (poolStringStartNewString
            { Request.zeroInit with headersStringPoolOffset := 8191 }).2.headersStringPoolOffset := by
  refine ⟨(pool_writes_stay_in_bounds_and_null_write_unreachable.1 "Host: example\r\n".data).1,
    pool_writes_stay_in_bounds_and_null_write_unreachable.2.2.2
      { Request.zeroInit with headersStringPoolOffset := 8191 } emptyPoolString 'q' (by decide),
    pool_writes_stay_in_bounds_and_null_write_unreachable.2.1
      { Request.zeroInit with headersStringPoolOffset := 8191 } (by decide)⟩

end EWS
